import Mathlib

/-!
Shallow embedding of the DNS record-verification tool (`main.go`).

The program reads an expected-record dataset, groups records by
(name, type), queries a list of nameservers for each group, and checks
the live answers against the expected group: a count check, a TTL
ceiling check, then a per-type set comparison of type-specific keys.

Pure data and pure logic are translated directly; the network exchange
is abstracted as an oracle `resolve : nameserver → name → qtype →
Option (Option DNSMsg)` where `none` models a transport error
(`err != nil`), `some none` a nil response, and `some (some m)` a
received message.  Go `map[K]bool` sets become `Finset`; Go `int`
becomes `Int`; `uint32` values become `Nat` (with the `< 2^32` bound
stated where it matters); a Go runtime panic (index out of range on a
slice, or `records[0]` on an empty slice) is modelled by the explicit
error value `CheckError.indexOutOfRange`.
-/

/-- One expected DNS record (Go struct `record` in `main.go`).
Field `Type` is rendered `rtype` because `type` is a Lean keyword. -/
structure record where
  rtype : String
  name : String
  ttl : Int
  target : String
  caaTag : String
  mxPreference : Int
  txtStrings : List String
  deriving DecidableEq, Repr

/-- One answer resource record (the `dns.RR` payloads the program
inspects: `dns.A`, `dns.AAAA`, `dns.CNAME`, `dns.CAA`, `dns.MX`,
`dns.TXT`; `other` covers any further rrtype).  The first field is the
header TTL (`uint32` in Go); payload fields carry exactly what the
checkers read (`a.A.String()`, `cname.Target`, `caaRec.Tag/Value`,
`mxRec.Preference/Mx`, `txtRec.Txt`). -/
inductive RR where
  | a (ttl : Nat) (addr : String)
  | aaaa (ttl : Nat) (addr : String)
  | cname (ttl : Nat) (target : String)
  | caa (ttl : Nat) (tag : String) (value : String)
  | mx (ttl : Nat) (preference : Nat) (exchange : String)
  | txt (ttl : Nat) (segments : List String)
  | other (ttl : Nat) (rrtype : String)
  deriving DecidableEq, Repr

/-- `answer.Header().Ttl`. -/
def RR.ttl : RR → Nat
  | .a t _ => t
  | .aaaa t _ => t
  | .cname t _ => t
  | .caa t _ _ => t
  | .mx t _ _ => t
  | .txt t _ => t
  | .other t _ => t

/-- `dns.TypeToString[rr.Header().Rrtype]`, used in the wrong-type
error messages. -/
def RR.typeName : RR → String
  | .a _ _ => "A"
  | .aaaa _ _ => "AAAA"
  | .cname _ _ => "CNAME"
  | .caa _ _ _ => "CAA"
  | .mx _ _ _ => "MX"
  | .txt _ _ => "TXT"
  | .other _ s => s

/-- A received DNS message: its response code and its answer section
(`resp.Rcode`, `resp.Answer`).  Rcode 0 is `dns.RcodeSuccess`. -/
structure DNSMsg where
  rcode : Nat
  answer : List RR
  deriving DecidableEq, Repr

/-- The distinct failure values the program produces.  In Go every
site builds an `error` with `fmt.Errorf`; each constructor mirrors one
such site (the three in `query`, the count / TTL / unknown-type sites
in `doCheckRecord`, and the wrong-type / set-mismatch sites in the six
checkers).  `indexOutOfRange` stands for the Go runtime panic when a
slice is indexed out of bounds. -/
inductive CheckError where
  | transport
  | emptyResponse
  | nonSuccessRcode (code : Nat)
  | countMismatch (expected actual : Nat)
  | ttlExceeded (ceiling : Int) (actual : Nat)
  | wrongType (expected actual : String)
  | valueMismatch (expected actual : Finset String)
  | valueMismatchCAA (expected actual : Finset (String × String))
  | valueMismatchMX (expected actual : Finset (Int × String))
  | unknownType
  | indexOutOfRange
  deriving DecidableEq

deriving instance DecidableEq for Except

/-- Go's conversion `uint32(n)` of a (64-bit) signed `n`: truncation,
i.e. reduction modulo 2^32. -/
def uint32ofInt (n : Int) : Nat := (n % 4294967296).toNat

/-- The network exchange outcome for one query: `none` = transport
error, `some none` = no response message, `some (some m)` = message
`m` received. -/
abbrev Exchange := Option (Option DNSMsg)

/-- `query` (main.go:21-42), with the `client.Exchange` call abstracted
to its outcome: error mapping and pass-through of a successful
response. -/
def query (exch : Exchange) : Except CheckError DNSMsg :=
  match exch with
  | none => .error .transport
  | some none => .error .emptyResponse
  | some (some resp) =>
    if resp.rcode ≠ 0 then .error (.nonSuccessRcode resp.rcode)
    else .ok resp

/-- The shared loop shape of the six checkers: visit
`actualRecords[0..k-1]` in order, extract the type-specific key of
each (`keyOf`), failing with a wrong-type error at the first answer of
the wrong payload type, and with `indexOutOfRange` (the Go panic) if
the loop runs past the end of the list. -/
def collectKeys (keyOf : RR → Option κ) (expName : String) :
    List RR → Nat → Except CheckError (List κ)
  | _, 0 => .ok []
  | [], _ + 1 => .error .indexOutOfRange
  | r :: rest, k + 1 =>
    match keyOf r with
    | some v =>
      match collectKeys keyOf expName rest k with
      | .ok ks => .ok (v :: ks)
      | .error e => .error e
    | none => .error (.wrongType expName r.typeName)

/-- The A-record key: `a.A.String()` for a `dns.A`, nothing for any
other payload. -/
def aKeyOf : RR → Option String
  | .a _ addr => some addr
  | _ => none

/-- The AAAA-record key: `aaaa.AAAA.String()`. -/
def aaaaKeyOf : RR → Option String
  | .aaaa _ addr => some addr
  | _ => none

/-- The CNAME-record key: `cname.Target`. -/
def cnameKeyOf : RR → Option String
  | .cname _ target => some target
  | _ => none

/-- The CAA-record key: the pair `(caaRec.Tag, caaRec.Value)`. -/
def caaKeyOf : RR → Option (String × String)
  | .caa _ tag value => some (tag, value)
  | _ => none

/-- The MX-record key: the pair `(int(mxRec.Preference), mxRec.Mx)`. -/
def mxKeyOf : RR → Option (Int × String)
  | .mx _ pref exch => some ((pref : Int), exch)
  | _ => none

/-- The TXT-record key: all character-string segments joined with a
NUL separator (`strings.Join(txtRec.Txt, "\x00")`). -/
def txtKeyOf : RR → Option String
  | .txt _ segs => some (String.intercalate "\x00" segs)
  | _ => none

/-- `checkARecord` (main.go:44-63): build the expected-value set from
the records' `Target` fields, read the first `len(expectedValues)`
answers as A records into the actual-value set, and compare the two
sets. -/
def checkARecord (actualRecords : List RR) (expectedRecords : List record) :
    Except CheckError Unit :=
  let expectedValues : Finset String := (expectedRecords.map record.target).toFinset
  match collectKeys aKeyOf "A" actualRecords expectedValues.card with
  | .error e => .error e
  | .ok ks =>
    if expectedValues = ks.toFinset then .ok ()
    else .error (.valueMismatch expectedValues ks.toFinset)

/-- `checkAAAARecord` (main.go:65-85). -/
def checkAAAARecord (actualRecords : List RR) (expectedRecords : List record) :
    Except CheckError Unit :=
  let expectedValues : Finset String := (expectedRecords.map record.target).toFinset
  match collectKeys aaaaKeyOf "AAAA" actualRecords expectedValues.card with
  | .error e => .error e
  | .ok ks =>
    if expectedValues = ks.toFinset then .ok ()
    else .error (.valueMismatch expectedValues ks.toFinset)

/-- `checkCNAMERecord` (main.go:87-107). -/
def checkCNAMERecord (actualRecords : List RR) (expectedRecords : List record) :
    Except CheckError Unit :=
  let expectedValues : Finset String := (expectedRecords.map record.target).toFinset
  match collectKeys cnameKeyOf "CNAME" actualRecords expectedValues.card with
  | .error e => .error e
  | .ok ks =>
    if expectedValues = ks.toFinset then .ok ()
    else .error (.valueMismatch expectedValues ks.toFinset)

/-- `checkCAARecord` (main.go:109-139): keys are `(tag, value)`
pairs, the expected key of a record being `(CAATag, Target)`. -/
def checkCAARecord (actualRecords : List RR) (expectedRecords : List record) :
    Except CheckError Unit :=
  let expectedValues : Finset (String × String) :=
    (expectedRecords.map fun r => (r.caaTag, r.target)).toFinset
  match collectKeys caaKeyOf "CAA" actualRecords expectedValues.card with
  | .error e => .error e
  | .ok ks =>
    if expectedValues = ks.toFinset then .ok ()
    else .error (.valueMismatchCAA expectedValues ks.toFinset)

/-- `checkMXRecord` (main.go:141-171): keys are
`(preference, exchange)` pairs, the expected key of a record being
`(MXPreference, Target)`. -/
def checkMXRecord (actualRecords : List RR) (expectedRecords : List record) :
    Except CheckError Unit :=
  let expectedValues : Finset (Int × String) :=
    (expectedRecords.map fun r => (r.mxPreference, r.target)).toFinset
  match collectKeys mxKeyOf "MX" actualRecords expectedValues.card with
  | .error e => .error e
  | .ok ks =>
    if expectedValues = ks.toFinset then .ok ()
    else .error (.valueMismatchMX expectedValues ks.toFinset)

/-- `checkTXTRecord` (main.go:173-193): keys are the NUL-joined
segment sequences, the expected key of a record being
`strings.Join(TXTStrings, "\x00")`. -/
def checkTXTRecord (actualRecords : List RR) (expectedRecords : List record) :
    Except CheckError Unit :=
  let expectedValues : Finset String :=
    (expectedRecords.map fun r => String.intercalate "\x00" r.txtStrings).toFinset
  match collectKeys txtKeyOf "TXT" actualRecords expectedValues.card with
  | .error e => .error e
  | .ok ks =>
    if expectedValues = ks.toFinset then .ok ()
    else .error (.valueMismatch expectedValues ks.toFinset)

/-- `absolutize` (main.go:205-211). -/
def absolutize (domain : String) (rel : String) : String :=
  if rel = "@" then domain
  else rel ++ "." ++ domain

/-- The TTL loop of `doCheckRecord` (main.go:226-230): scan the
answers in order and report the first TTL strictly above the ceiling,
`none` when all pass. -/
def checkTTLs : List RR → Nat → Option Nat
  | [], _ => none
  | answer :: rest, ceiling =>
    if answer.ttl > ceiling then some answer.ttl
    else checkTTLs rest ceiling

/-- The type switch of `doCheckRecord` (main.go:232-247). -/
def dispatchCheck (recordType : String) (answers : List RR)
    (records : List record) : Except CheckError Unit :=
  match recordType with
  | "A" => checkARecord answers records
  | "AAAA" => checkAAAARecord answers records
  | "CNAME" => checkCNAMERecord answers records
  | "CAA" => checkCAARecord answers records
  | "MX" => checkMXRecord answers records
  | "TXT" => checkTXTRecord answers records
  | _ => .error .unknownType

/-- The network oracle: what one exchange with nameserver `ns` for
`name` / `qtype` yields. -/
abbrev Resolve := String → String → String → Exchange

/-- `doCheckRecord` (main.go:213-248): query, then count check, then
TTL check against `uint32(records[0].TTL)`, then the per-type set
comparison.  `records[0].Type` on an empty group is the Go panic. -/
def doCheckRecord (resolve : Resolve) (ns : String) (domain : String)
    (name : String) (records : List record) : Except CheckError Unit :=
  match records with
  | [] => .error .indexOutOfRange
  | r0 :: rs =>
    match query (resolve ns name r0.rtype) with
    | .error e => .error e
    | .ok resp =>
      if (r0 :: rs).length ≠ resp.answer.length then
        .error (.countMismatch (r0 :: rs).length resp.answer.length)
      else
        match checkTTLs resp.answer (uint32ofInt r0.ttl) with
        | some t => .error (.ttlExceeded r0.ttl t)
        | none => dispatchCheck r0.rtype resp.answer (r0 :: rs)

/-- `checkRecord` (main.go:250-261): absolutize the group's first
name, run the pipeline, and report whether this check failed (the
worker sets the shared `failed` flag exactly when the result is an
error).  A `true` outcome is a failure.  The empty-group arm is
unreachable from `main` (grouping only builds non-empty groups); in Go
it would panic at `records[0].Name`. -/
def checkRecord (resolve : Resolve) (ns : String) (domain : String)
    (records : List record) : Bool :=
  match records with
  | [] => true
  | r0 :: rs =>
    let absoluteName := absolutize domain r0.name
    match doCheckRecord resolve ns domain absoluteName (r0 :: rs) with
    | .error _ => true
    | .ok _ => false

/-- The grouping key `nameType{name, typ}` of main.go:285-288. -/
def groupKey (r : record) : String × String := (r.name, r.rtype)

/-- One step of building `recordsByNameType` (main.go:290-294): append
`r` to the group carrying its key, or open a new group.  The Go map is
rendered as an association list; the claims proved about it are
iteration-order-independent. -/
def insertRecord (acc : List ((String × String) × List record)) (r : record) :
    List ((String × String) × List record) :=
  match acc with
  | [] => [(groupKey r, [r])]
  | (k, g) :: rest =>
    if k = groupKey r then (k, g ++ [r]) :: rest
    else (k, g) :: insertRecord rest r

/-- `recordsByNameType` (main.go:290-294): partition a domain's
records by (name, type). -/
def recordsByNameType (records : List record) :
    List ((String × String) × List record) :=
  records.foldl insertRecord []

/-- The check list `main` launches (main.go:284-303): for each domain,
for each of its groups, for each nameserver, one
(nameserver, domain, group) check. -/
def allChecks (nss : List String) (domains : List (String × List record)) :
    List (String × String × List record) :=
  domains.foldr
    (fun d acc =>
      (recordsByNameType d.2).foldr
        (fun g acc2 => nss.map (fun ns => (ns, d.1, g.2)) ++ acc2) [] ++ acc) []

/-- The outcomes of one whole run: one Boolean (true = failed) per
launched check, in launch order. -/
def runAll (resolve : Resolve) (nss : List String)
    (domains : List (String × List record)) : List Bool :=
  (allChecks nss domains).map fun c => checkRecord resolve c.1 c.2.1 c.2.2

/-- The shared `failed` flag (main.go:19, 257): starts `false`, each
failing check stores `true`, nothing ever stores `false`.  Folding the
or-accumulation over the outcomes. -/
def failedFlag (outcomes : List Bool) : Bool :=
  outcomes.foldl (fun f o => f || o) false

/-- The program's final verdict (main.go:305-312): success (exit 0 and
"All checks passed") iff the flag was never set. -/
def mainResult (resolve : Resolve) (nss : List String)
    (domains : List (String × List record)) : Bool :=
  !failedFlag (runAll resolve nss domains)


/-- The spec side of claim C1: "the set of comparison keys built from
the answer records" — for A answers, each answer's A key; used to
compare the code's behavior against the claim's words. -/
def specAKeys (answers : List RR) : List String := answers.filterMap aKeyOf

/-- The spec side of claim C1 for AAAA answers. -/
def specAAAAKeys (answers : List RR) : List String := answers.filterMap aaaaKeyOf

/-- The spec side of claim C1 for CNAME answers. -/
def specCNAMEKeys (answers : List RR) : List String := answers.filterMap cnameKeyOf

/-- The spec side of claim C1 for CAA answers. -/
def specCAAKeys (answers : List RR) : List (String × String) := answers.filterMap caaKeyOf

/-- The spec side of claim C1 for MX answers. -/
def specMXKeys (answers : List RR) : List (Int × String) := answers.filterMap mxKeyOf

/-- The spec side of claim C1 for TXT answers. -/
def specTXTKeys (answers : List RR) : List String := answers.filterMap txtKeyOf

/-- All records contained in a list of groups, in group order; the
"multiset union of all RecordGroups' members". -/
def joinGroups (gs : List ((String × String) × List record)) : List record :=
  (gs.map Prod.snd).flatten

/-! ## Helper lemmas -/

theorem uint32ofInt_eq_toNat {n : Int} (h0 : 0 ≤ n) (h32 : n < 4294967296) :
    uint32ofInt n = n.toNat := by
  unfold uint32ofInt
  rw [Int.emod_eq_of_lt h0 h32]

theorem checkTTLs_eq_none {l : List RR} {c : Nat} :
    checkTTLs l c = none ↔ ∀ a ∈ l, a.ttl ≤ c := by
  induction l with
  | nil => simp [checkTTLs]
  | cons r rest ih =>
    rw [checkTTLs]
    by_cases h : r.ttl > c
    · rw [if_pos h]
      constructor
      · intro hx; exact absurd hx (by simp)
      · intro hall
        exact absurd (hall r (List.mem_cons_self r rest)) (by omega)
    · rw [if_neg h, ih, List.forall_mem_cons]
      constructor
      · intro hall; exact ⟨by omega, hall⟩
      · intro hall; exact hall.2

theorem checkTTLs_some {l : List RR} {c : Nat} (h : ∃ a ∈ l, c < a.ttl) :
    ∃ t, checkTTLs l c = some t ∧ c < t ∧ t ∈ l.map RR.ttl := by
  induction l with
  | nil => simp at h
  | cons r rest ih =>
    by_cases hr : c < r.ttl
    · exact ⟨r.ttl, by rw [checkTTLs, if_pos hr], hr, by simp⟩
    · obtain ⟨a, ha, hc⟩ := h
      rcases List.mem_cons.mp ha with rfl | ha2
      · exact absurd hc hr
      · obtain ⟨t, h1, h2, h3⟩ := ih ⟨a, ha2, hc⟩
        refine ⟨t, ?_, h2, by simp only [List.map_cons]; exact List.mem_cons_of_mem _ h3⟩
        rw [checkTTLs, if_neg hr]
        exact h1

theorem collectKeys_ok {κ : Type} (keyOf : RR → Option κ) (n : String) :
    ∀ (l : List RR) (k : Nat) (ks : List κ),
      collectKeys keyOf n l k = Except.ok ks →
      ks = (l.take k).filterMap keyOf ∧ ks.length = k := by
  intro l
  induction l with
  | nil =>
    intro k ks h
    cases k with
    | zero =>
      simp only [collectKeys, Except.ok.injEq] at h
      simp [← h]
    | succ k => simp [collectKeys] at h
  | cons r rest ih =>
    intro k ks h
    cases k with
    | zero =>
      simp only [collectKeys, Except.ok.injEq] at h
      simp [← h]
    | succ k =>
      rw [collectKeys] at h
      cases hk : keyOf r with
      | none => rw [hk] at h; simp at h
      | some v =>
        rw [hk] at h
        cases hc : collectKeys keyOf n rest k with
        | error e => rw [hc] at h; simp at h
        | ok ks2 =>
          rw [hc] at h
          simp only [Except.ok.injEq] at h
          obtain ⟨h1, h2⟩ := ih k ks2 hc
          subst h
          simp [List.filterMap_cons, hk, ← h1, h2]

theorem collectKeys_ne_oob {κ : Type} (keyOf : RR → Option κ) (n : String) :
    ∀ (l : List RR) (k : Nat), k ≤ l.length →
      collectKeys keyOf n l k ≠ Except.error CheckError.indexOutOfRange := by
  intro l
  induction l with
  | nil =>
    intro k hk
    have hk0 : k = 0 := Nat.le_zero.mp (by simpa using hk)
    subst hk0
    simp [collectKeys]
  | cons r rest ih =>
    intro k hk
    cases k with
    | zero => simp [collectKeys]
    | succ k =>
      rw [collectKeys]
      cases hk2 : keyOf r with
      | none => simp
      | some v =>
        cases hc : collectKeys keyOf n rest k with
        | error e =>
          have := ih k (by simpa using hk)
          rw [hc] at this
          simpa using this
        | ok ks => simp

/-! ## Claim theorems -/

/-- C8: `absolutize` maps the relative name `"@"` to the bare domain
and any other relative name `rel` to `rel + "." + domain`; in
particular `absolutize domain "www" = "www." ++ domain`. -/
theorem absolutize_spec :
    (∀ domain : String, absolutize domain "@" = domain)
  ∧ (∀ domain rel : String, rel ≠ "@" → absolutize domain rel = rel ++ "." ++ domain)
  ∧ (∀ domain : String, absolutize domain "www" = "www." ++ domain) := by
  refine ⟨fun domain => by simp [absolutize], fun domain rel h => by simp [absolutize, h], ?_⟩
  intro domain
  have h2 : ("www" : String) ≠ "@" := by decide
  simp only [absolutize, if_neg h2]
  rw [show ("www" : String) ++ "." = "www." from by decide]

/-- Witness for C8 at a concrete domain and relative name. -/
theorem absolutize_spec_witness :
    absolutize "example.com" "www" = "www" ++ "." ++ "example.com" :=
  absolutize_spec.2.1 "example.com" "www" (by decide)

/-- C10: the TTL ceiling is a signed integer converted with `uint32`
truncation for the comparison; a ceiling of `-1` becomes `4294967295`,
the largest `uint32`, so the TTL check accepts every possible answer
TTL. -/
theorem ttl_wrap_neg_ceiling :
    uint32ofInt (-1) = 4294967295
  ∧ (∀ n : Int, uint32ofInt n = ((n % 4294967296).toNat))
  ∧ (∀ answers : List RR, (∀ a ∈ answers, a.ttl < 4294967296) →
      checkTTLs answers (uint32ofInt (-1)) = none) := by
  refine ⟨by decide, fun n => rfl, ?_⟩
  intro answers h
  rw [checkTTLs_eq_none]
  intro a ha
  have := h a ha
  have h1 : uint32ofInt (-1) = 4294967295 := by decide
  omega

/-- Witness for C10: with ceiling `-1` an answer TTL as large as
`4294967295` is accepted. -/
theorem ttl_wrap_neg_ceiling_witness :
    checkTTLs [RR.a 4294967295 "1.1.1.1"] (uint32ofInt (-1)) = none :=
  ttl_wrap_neg_ceiling.2.2 [RR.a 4294967295 "1.1.1.1"] (by decide)

/-- C5: the TXT comparison key joins segments with a NUL separator, so
segment sequences differing only in boundaries give different keys:
`["ab","c"]` keys to `"ab\x00c"`, `["a","bc"]` to `"a\x00bc"`, the two
are unequal, and an answer with the one does not match an expected
record with the other (the validator reports the set mismatch). -/
theorem txt_segment_integrity :
    String.intercalate "\x00" ["ab", "c"] = "ab\x00c"
  ∧ String.intercalate "\x00" ["a", "bc"] = "a\x00bc"
  ∧ String.intercalate "\x00" ["ab", "c"] ≠ String.intercalate "\x00" ["a", "bc"]
  ∧ txtKeyOf (RR.txt 60 ["a", "bc"]) ≠ txtKeyOf (RR.txt 60 ["ab", "c"])
  ∧ checkTXTRecord [RR.txt 60 ["a", "bc"]] [⟨"TXT", "@", 300, "", "", 0, ["ab", "c"]⟩] =
      .error (.valueMismatch {"ab\x00c"} {"a\x00bc"}) := by
  refine ⟨by decide, by decide, by decide, by decide, by decide⟩

/-- C6: `query` fails with the transport error exactly when the
exchange itself failed, with the empty-response error exactly when no
message came back, and with the non-success-rcode error exactly when
the received message's rcode is nonzero; on success it returns the
received message itself, so the answer section is passed through
exactly as received (no reordering, no deduplication). -/
theorem query_error_mapping :
    (∀ exch : Exchange, query exch = .error .transport ↔ exch = none)
  ∧ (∀ exch : Exchange, query exch = .error .emptyResponse ↔ exch = some none)
  ∧ (∀ m : DNSMsg, m.rcode ≠ 0 → query (some (some m)) = .error (.nonSuccessRcode m.rcode))
  ∧ (∀ (exch : Exchange) (c : Nat), query exch = .error (.nonSuccessRcode c) →
      ∃ m : DNSMsg, exch = some (some m) ∧ m.rcode = c ∧ c ≠ 0)
  ∧ (∀ m : DNSMsg, m.rcode = 0 → query (some (some m)) = .ok m)
  ∧ (∀ (exch : Exchange) (m : DNSMsg), query exch = .ok m →
      exch = some (some m) ∧ (query exch).toOption.map DNSMsg.answer = some m.answer) := by
  refine ⟨?_, ?_, ?_, ?_, ?_, ?_⟩
  · rintro (_ | _ | m)
    · simp [query]
    · simp [query]
    · by_cases h : m.rcode = 0 <;> simp [query, h]
  · rintro (_ | _ | m)
    · simp [query]
    · simp [query]
    · by_cases h : m.rcode = 0 <;> simp [query, h]
  · intro m h
    simp [query, h]
  · rintro (_ | _ | m) c h
    · simp [query] at h
    · simp [query] at h
    · by_cases h0 : m.rcode = 0
      · simp [query, h0] at h
      · rw [query.eq_def] at h
        simp only at h
        rw [if_pos h0] at h
        simp only [Except.error.injEq, CheckError.nonSuccessRcode.injEq] at h
        exact ⟨m, rfl, h, by omega⟩
  · intro m h
    simp [query, h]
  · rintro (_ | _ | m) m2 h
    · simp [query] at h
    · simp [query] at h
    · by_cases h0 : m.rcode = 0
      · rw [query.eq_def] at h
        simp only at h
        rw [if_neg (by simp [h0] : ¬ m.rcode ≠ 0)] at h
        simp only [Except.ok.injEq] at h
        subst h
        refine ⟨rfl, ?_⟩
        rw [query.eq_def]
        simp only
        rw [if_neg (by simp [h0] : ¬ m.rcode ≠ 0)]
        rfl
      · simp [query, h0] at h


/-- Witness for C6 at two concrete exchanges: rcode 3 fails as
non-success, rcode 0 is passed through unchanged. -/
theorem query_error_mapping_witness :
    query (some (some ⟨3, []⟩)) = .error (.nonSuccessRcode 3)
  ∧ query (some (some ⟨0, [RR.a 60 "1.1.1.1"]⟩)) = .ok ⟨0, [RR.a 60 "1.1.1.1"]⟩ :=
  ⟨query_error_mapping.2.2.1 ⟨3, []⟩ (by decide),
   query_error_mapping.2.2.2.2.1 ⟨0, [RR.a 60 "1.1.1.1"]⟩ rfl⟩

/-- C4: after a successful query, if the number of answers differs
from the number of expected records in the group, the check fails with
the count mismatch carrying both counts, whatever the answers contain:
the count check runs before the TTL check and the type dispatch. -/
theorem count_check_first (resolve : Resolve) (ns domain name : String)
    (r0 : record) (rs : List record) (msg : DNSMsg)
    (hres : resolve ns name r0.rtype = some (some msg))
    (hrc : msg.rcode = 0)
    (hcount : (r0 :: rs).length ≠ msg.answer.length) :
    doCheckRecord resolve ns domain name (r0 :: rs) =
      .error (.countMismatch (r0 :: rs).length msg.answer.length) := by
  have hq : query (resolve ns name r0.rtype) = .ok msg := by
    rw [hres]
    simp [query, hrc]
  rw [doCheckRecord.eq_def]
  simp only [hq]
  rw [if_pos hcount]

/-- Witness for C4: two expected records, one answer, arbitrary
content. -/
theorem count_check_first_witness :
    doCheckRecord (fun _ _ _ => some (some ⟨0, [RR.a 60 "9.9.9.9"]⟩))
      "8.8.8.8:53" "example.com" "example.com"
      [⟨"A", "@", 300, "1.2.3.4", "", 0, []⟩, ⟨"A", "@", 300, "5.6.7.8", "", 0, []⟩] =
      .error (.countMismatch 2 1) :=
  count_check_first (fun _ _ _ => some (some ⟨0, [RR.a 60 "9.9.9.9"]⟩))
    "8.8.8.8:53" "example.com" "example.com"
    ⟨"A", "@", 300, "1.2.3.4", "", 0, []⟩ [⟨"A", "@", 300, "5.6.7.8", "", 0, []⟩]
    ⟨0, [RR.a 60 "9.9.9.9"]⟩ rfl rfl (by decide)

/-- C3: with the count check passed, every answer TTL is compared to
the first member's ceiling (here within `uint32` range, so the
conversion is the identity): if all answers are at or below the
ceiling the TTL check passes and the result is exactly the type
dispatch; if some answer is strictly above, the check fails with a
TTL-exceeded error carrying a violating answer TTL. -/
theorem ttl_ceiling_check (resolve : Resolve) (ns domain name : String)
    (r0 : record) (rs : List record) (msg : DNSMsg)
    (hres : resolve ns name r0.rtype = some (some msg))
    (hrc : msg.rcode = 0)
    (hcount : (r0 :: rs).length = msg.answer.length)
    (h0 : 0 ≤ r0.ttl) (h32 : r0.ttl < 4294967296) :
    ((∀ a ∈ msg.answer, a.ttl ≤ r0.ttl.toNat) →
        doCheckRecord resolve ns domain name (r0 :: rs) =
          dispatchCheck r0.rtype msg.answer (r0 :: rs))
  ∧ ((∃ a ∈ msg.answer, r0.ttl.toNat < a.ttl) →
        ∃ t, doCheckRecord resolve ns domain name (r0 :: rs) =
            .error (.ttlExceeded r0.ttl t)
          ∧ r0.ttl.toNat < t ∧ t ∈ msg.answer.map RR.ttl) := by
  have hu : uint32ofInt r0.ttl = r0.ttl.toNat := uint32ofInt_eq_toNat h0 h32
  have hq : query (resolve ns name r0.rtype) = .ok msg := by
    rw [hres]
    simp [query, hrc]
  constructor
  · intro hall
    have hnone : checkTTLs msg.answer (uint32ofInt r0.ttl) = none := by
      rw [hu, checkTTLs_eq_none]
      exact hall
    rw [doCheckRecord.eq_def]
    simp only [hq]
    rw [if_neg (by simp [hcount] : ¬ (r0 :: rs).length ≠ msg.answer.length)]
    simp only [hnone]
  · intro hex
    obtain ⟨t, h1, h2, h3⟩ :=
      checkTTLs_some (l := msg.answer) (c := uint32ofInt r0.ttl) (by rw [hu]; exact hex)
    rw [hu] at h2
    refine ⟨t, ?_, h2, h3⟩
    rw [doCheckRecord.eq_def]
    simp only [hq]
    rw [if_neg (by simp [hcount] : ¬ (r0 :: rs).length ≠ msg.answer.length)]
    simp only [h1]

/-- Witness for C3: an answer exactly at the ceiling passes the TTL
check and the pipeline proceeds to the type dispatch. -/
theorem ttl_ceiling_check_witness :
    doCheckRecord (fun _ _ _ => some (some ⟨0, [RR.a 300 "1.2.3.4"]⟩))
      "8.8.8.8:53" "example.com" "example.com"
      [⟨"A", "@", 300, "1.2.3.4", "", 0, []⟩] =
      dispatchCheck "A" [RR.a 300 "1.2.3.4"] [⟨"A", "@", 300, "1.2.3.4", "", 0, []⟩] :=
  (ttl_ceiling_check (fun _ _ _ => some (some ⟨0, [RR.a 300 "1.2.3.4"]⟩))
    "8.8.8.8:53" "example.com" "example.com"
    ⟨"A", "@", 300, "1.2.3.4", "", 0, []⟩ [] ⟨0, [RR.a 300 "1.2.3.4"]⟩
    rfl rfl rfl (by decide) (by decide)).1 (by decide)

/-- C9: each type-specific validator reads the answer list only at
positions below the size of the deduplicated expected key set; once
the count pre-check has passed (answers as long as the non-empty
expected list), that size is at most the answer count, so the loop
stays in bounds — no validator can produce the out-of-range panic. -/
theorem checker_index_in_bounds (answers : List RR) (records : List record)
    (hne : records ≠ []) (hlen : answers.length = records.length) :
    ((records.map record.target).toFinset.card ≤ answers.length)
  ∧ checkARecord answers records ≠ Except.error CheckError.indexOutOfRange
  ∧ checkAAAARecord answers records ≠ Except.error CheckError.indexOutOfRange
  ∧ checkCNAMERecord answers records ≠ Except.error CheckError.indexOutOfRange
  ∧ checkCAARecord answers records ≠ Except.error CheckError.indexOutOfRange
  ∧ checkMXRecord answers records ≠ Except.error CheckError.indexOutOfRange
  ∧ checkTXTRecord answers records ≠ Except.error CheckError.indexOutOfRange := by
  have hbound : ∀ {β : Type} [DecidableEq β] (f : record → β),
      ((records.map f).toFinset).card ≤ answers.length := by
    intro β inst f
    have h1 : ((records.map f).toFinset).card ≤ (records.map f).length :=
      List.toFinset_card_le _
    have h2 : (records.map f).length = records.length := List.length_map _ _
    omega
  refine ⟨hbound record.target, ?_, ?_, ?_, ?_, ?_, ?_⟩
  · have hno := collectKeys_ne_oob aKeyOf "A" answers
      ((records.map record.target).toFinset).card (hbound record.target)
    simp only [checkARecord]
    cases hc : collectKeys aKeyOf "A" answers ((records.map record.target).toFinset).card with
    | error e =>
      rw [hc] at hno
      simpa using hno
    | ok ks =>
      simp only
      split_ifs with h
      · simp
      · simp
  · have hno := collectKeys_ne_oob aaaaKeyOf "AAAA" answers
      ((records.map record.target).toFinset).card (hbound record.target)
    simp only [checkAAAARecord]
    cases hc : collectKeys aaaaKeyOf "AAAA" answers ((records.map record.target).toFinset).card with
    | error e =>
      rw [hc] at hno
      simpa using hno
    | ok ks =>
      simp only
      split_ifs with h
      · simp
      · simp
  · have hno := collectKeys_ne_oob cnameKeyOf "CNAME" answers
      ((records.map record.target).toFinset).card (hbound record.target)
    simp only [checkCNAMERecord]
    cases hc : collectKeys cnameKeyOf "CNAME" answers ((records.map record.target).toFinset).card with
    | error e =>
      rw [hc] at hno
      simpa using hno
    | ok ks =>
      simp only
      split_ifs with h
      · simp
      · simp
  · have hno := collectKeys_ne_oob caaKeyOf "CAA" answers
      ((records.map fun r => (r.caaTag, r.target)).toFinset).card
      (hbound fun r => (r.caaTag, r.target))
    simp only [checkCAARecord]
    cases hc : collectKeys caaKeyOf "CAA" answers
        ((records.map fun r => (r.caaTag, r.target)).toFinset).card with
    | error e =>
      rw [hc] at hno
      simpa using hno
    | ok ks =>
      simp only
      split_ifs with h
      · simp
      · simp
  · have hno := collectKeys_ne_oob mxKeyOf "MX" answers
      ((records.map fun r => (r.mxPreference, r.target)).toFinset).card
      (hbound fun r => (r.mxPreference, r.target))
    simp only [checkMXRecord]
    cases hc : collectKeys mxKeyOf "MX" answers
        ((records.map fun r => (r.mxPreference, r.target)).toFinset).card with
    | error e =>
      rw [hc] at hno
      simpa using hno
    | ok ks =>
      simp only
      split_ifs with h
      · simp
      · simp
  · have hno := collectKeys_ne_oob txtKeyOf "TXT" answers
      ((records.map fun r => String.intercalate "\x00" r.txtStrings).toFinset).card
      (hbound fun r => String.intercalate "\x00" r.txtStrings)
    simp only [checkTXTRecord]
    cases hc : collectKeys txtKeyOf "TXT" answers
        ((records.map fun r => String.intercalate "\x00" r.txtStrings).toFinset).card with
    | error e =>
      rw [hc] at hno
      simpa using hno
    | ok ks =>
      simp only
      split_ifs with h
      · simp
      · simp

/-- Witness for C9 at a concrete two-record group with matching answer
count. -/
theorem checker_index_in_bounds_witness :
    checkARecord [RR.a 60 "1.1.1.1", RR.a 60 "2.2.2.2"]
      [⟨"A", "@", 300, "1.1.1.1", "", 0, []⟩, ⟨"A", "@", 300, "2.2.2.2", "", 0, []⟩] ≠
      Except.error CheckError.indexOutOfRange :=
  (checker_index_in_bounds [RR.a 60 "1.1.1.1", RR.a 60 "2.2.2.2"]
    [⟨"A", "@", 300, "1.1.1.1", "", 0, []⟩, ⟨"A", "@", 300, "2.2.2.2", "", 0, []⟩]
    (by decide) (by decide)).2.1

/-- C1 (amended): for every supported record type (A, AAAA, CNAME,
CAA, MX, TXT), given that reading the first k answers succeeds (k
being the size of the deduplicated expected key set, every read answer
having the expected payload type and yielding key list `ks`), `ks`
consists of the keys of the first k answers, validation returns
Success iff the expected key set equals the key set of those first k
answers (order-independent on both sides), and any unequal pair of key
sets fails with the value-mismatch error carrying both sets.  The
original claim's "all the answer records" is corrected to "the first k
answer records" — see `set_comparison_counterexample`. -/
theorem set_comparison_amended :
    (∀ (answers : List RR) (records : List record) (ks : List String),
       collectKeys aKeyOf "A" answers ((records.map record.target).toFinset).card =
           Except.ok ks →
         ks = specAKeys (answers.take ((records.map record.target).toFinset).card)
       ∧ (checkARecord answers records = Except.ok () ↔
            (records.map record.target).toFinset = ks.toFinset)
       ∧ ((records.map record.target).toFinset ≠ ks.toFinset →
            checkARecord answers records =
              Except.error (.valueMismatch (records.map record.target).toFinset ks.toFinset)))
  ∧ (∀ (answers : List RR) (records : List record) (ks : List String),
       collectKeys aaaaKeyOf "AAAA" answers ((records.map record.target).toFinset).card =
           Except.ok ks →
         ks = specAAAAKeys (answers.take ((records.map record.target).toFinset).card)
       ∧ (checkAAAARecord answers records = Except.ok () ↔
            (records.map record.target).toFinset = ks.toFinset)
       ∧ ((records.map record.target).toFinset ≠ ks.toFinset →
            checkAAAARecord answers records =
              Except.error (.valueMismatch (records.map record.target).toFinset ks.toFinset)))
  ∧ (∀ (answers : List RR) (records : List record) (ks : List String),
       collectKeys cnameKeyOf "CNAME" answers ((records.map record.target).toFinset).card =
           Except.ok ks →
         ks = specCNAMEKeys (answers.take ((records.map record.target).toFinset).card)
       ∧ (checkCNAMERecord answers records = Except.ok () ↔
            (records.map record.target).toFinset = ks.toFinset)
       ∧ ((records.map record.target).toFinset ≠ ks.toFinset →
            checkCNAMERecord answers records =
              Except.error (.valueMismatch (records.map record.target).toFinset ks.toFinset)))
  ∧ (∀ (answers : List RR) (records : List record) (ks : List (String × String)),
       collectKeys caaKeyOf "CAA" answers ((records.map fun r => (r.caaTag, r.target)).toFinset).card =
           Except.ok ks →
         ks = specCAAKeys (answers.take ((records.map fun r => (r.caaTag, r.target)).toFinset).card)
       ∧ (checkCAARecord answers records = Except.ok () ↔
            (records.map fun r => (r.caaTag, r.target)).toFinset = ks.toFinset)
       ∧ ((records.map fun r => (r.caaTag, r.target)).toFinset ≠ ks.toFinset →
            checkCAARecord answers records =
              Except.error (.valueMismatchCAA (records.map fun r => (r.caaTag, r.target)).toFinset ks.toFinset)))
  ∧ (∀ (answers : List RR) (records : List record) (ks : List (Int × String)),
       collectKeys mxKeyOf "MX" answers ((records.map fun r => (r.mxPreference, r.target)).toFinset).card =
           Except.ok ks →
         ks = specMXKeys (answers.take ((records.map fun r => (r.mxPreference, r.target)).toFinset).card)
       ∧ (checkMXRecord answers records = Except.ok () ↔
            (records.map fun r => (r.mxPreference, r.target)).toFinset = ks.toFinset)
       ∧ ((records.map fun r => (r.mxPreference, r.target)).toFinset ≠ ks.toFinset →
            checkMXRecord answers records =
              Except.error (.valueMismatchMX (records.map fun r => (r.mxPreference, r.target)).toFinset ks.toFinset)))
  ∧ (∀ (answers : List RR) (records : List record) (ks : List String),
       collectKeys txtKeyOf "TXT" answers ((records.map fun r => String.intercalate "\x00" r.txtStrings).toFinset).card =
           Except.ok ks →
         ks = specTXTKeys (answers.take ((records.map fun r => String.intercalate "\x00" r.txtStrings).toFinset).card)
       ∧ (checkTXTRecord answers records = Except.ok () ↔
            (records.map fun r => String.intercalate "\x00" r.txtStrings).toFinset = ks.toFinset)
       ∧ ((records.map fun r => String.intercalate "\x00" r.txtStrings).toFinset ≠ ks.toFinset →
            checkTXTRecord answers records =
              Except.error (.valueMismatch (records.map fun r => String.intercalate "\x00" r.txtStrings).toFinset ks.toFinset))) := by
  refine ⟨?_, ?_, ?_, ?_, ?_, ?_⟩
  · intro answers records ks h
    refine ⟨?_, ?_, ?_⟩
    · have := (collectKeys_ok aKeyOf "A" answers _ ks h).1
      simpa [specAKeys] using this
    · simp only [checkARecord, h]
      constructor
      · intro he
        by_contra hne
        rw [if_neg hne] at he
        exact absurd he (by simp)
      · intro he
        rw [if_pos he]
    · intro hne
      simp only [checkARecord, h]
      rw [if_neg hne]
  · intro answers records ks h
    refine ⟨?_, ?_, ?_⟩
    · have := (collectKeys_ok aaaaKeyOf "AAAA" answers _ ks h).1
      simpa [specAAAAKeys] using this
    · simp only [checkAAAARecord, h]
      constructor
      · intro he
        by_contra hne
        rw [if_neg hne] at he
        exact absurd he (by simp)
      · intro he
        rw [if_pos he]
    · intro hne
      simp only [checkAAAARecord, h]
      rw [if_neg hne]
  · intro answers records ks h
    refine ⟨?_, ?_, ?_⟩
    · have := (collectKeys_ok cnameKeyOf "CNAME" answers _ ks h).1
      simpa [specCNAMEKeys] using this
    · simp only [checkCNAMERecord, h]
      constructor
      · intro he
        by_contra hne
        rw [if_neg hne] at he
        exact absurd he (by simp)
      · intro he
        rw [if_pos he]
    · intro hne
      simp only [checkCNAMERecord, h]
      rw [if_neg hne]
  · intro answers records ks h
    refine ⟨?_, ?_, ?_⟩
    · have := (collectKeys_ok caaKeyOf "CAA" answers _ ks h).1
      simpa [specCAAKeys] using this
    · simp only [checkCAARecord, h]
      constructor
      · intro he
        by_contra hne
        rw [if_neg hne] at he
        exact absurd he (by simp)
      · intro he
        rw [if_pos he]
    · intro hne
      simp only [checkCAARecord, h]
      rw [if_neg hne]
  · intro answers records ks h
    refine ⟨?_, ?_, ?_⟩
    · have := (collectKeys_ok mxKeyOf "MX" answers _ ks h).1
      simpa [specMXKeys] using this
    · simp only [checkMXRecord, h]
      constructor
      · intro he
        by_contra hne
        rw [if_neg hne] at he
        exact absurd he (by simp)
      · intro he
        rw [if_pos he]
    · intro hne
      simp only [checkMXRecord, h]
      rw [if_neg hne]
  · intro answers records ks h
    refine ⟨?_, ?_, ?_⟩
    · have := (collectKeys_ok txtKeyOf "TXT" answers _ ks h).1
      simpa [specTXTKeys] using this
    · simp only [checkTXTRecord, h]
      constructor
      · intro he
        by_contra hne
        rw [if_neg hne] at he
        exact absurd he (by simp)
      · intro he
        rw [if_pos he]
    · intro hne
      simp only [checkTXTRecord, h]
      rw [if_neg hne]

/-- Witness for C1 (amended) at a concrete input with a duplicated
expected value. -/
theorem set_comparison_amended_witness :
    checkARecord [RR.a 60 "1.1.1.1", RR.a 60 "2.2.2.2"]
        [⟨"A", "@", 300, "1.1.1.1", "", 0, []⟩, ⟨"A", "@", 300, "1.1.1.1", "", 0, []⟩] =
      Except.ok () ↔
      ([⟨"A", "@", 300, "1.1.1.1", "", 0, []⟩,
        (⟨"A", "@", 300, "1.1.1.1", "", 0, []⟩ : record)].map record.target).toFinset =
        (["1.1.1.1"] : List String).toFinset :=
  (set_comparison_amended.1 [RR.a 60 "1.1.1.1", RR.a 60 "2.2.2.2"]
    [⟨"A", "@", 300, "1.1.1.1", "", 0, []⟩, ⟨"A", "@", 300, "1.1.1.1", "", 0, []⟩]
    ["1.1.1.1"] (by decide)).2.1

/-- Counterexample to C1 as stated: with expected A records
["1.1.1.1", "1.1.1.1"] (a duplicate) and answers
["1.1.1.1", "2.2.2.2"], the count pre-check passes (2 = 2), the TTL
pre-check passes, and validation returns Success — yet the set of keys
built from the expected records, {"1.1.1.1"}, differs from the set of
keys built from all the answer records, {"1.1.1.1", "2.2.2.2"}: the
validator only reads the first `card` answers, so the claimed
equivalence "Success iff expected keys = keys of all answers" is
false. -/
theorem set_comparison_counterexample :
    ([⟨"A", "@", 300, "1.1.1.1", "", 0, []⟩,
      (⟨"A", "@", 300, "1.1.1.1", "", 0, []⟩ : record)].length =
      ([RR.a 60 "1.1.1.1", RR.a 60 "2.2.2.2"] : List RR).length)
  ∧ checkTTLs [RR.a 60 "1.1.1.1", RR.a 60 "2.2.2.2"] (uint32ofInt 300) = none
  ∧ doCheckRecord (fun _ _ _ => some (some ⟨0, [RR.a 60 "1.1.1.1", RR.a 60 "2.2.2.2"]⟩))
      "8.8.8.8:53" "example.com" "example.com"
      [⟨"A", "@", 300, "1.1.1.1", "", 0, []⟩, ⟨"A", "@", 300, "1.1.1.1", "", 0, []⟩] =
      Except.ok ()
  ∧ checkARecord [RR.a 60 "1.1.1.1", RR.a 60 "2.2.2.2"]
      [⟨"A", "@", 300, "1.1.1.1", "", 0, []⟩, ⟨"A", "@", 300, "1.1.1.1", "", 0, []⟩] =
      Except.ok ()
  ∧ ([⟨"A", "@", 300, "1.1.1.1", "", 0, []⟩,
      (⟨"A", "@", 300, "1.1.1.1", "", 0, []⟩ : record)].map record.target).toFinset ≠
      (specAKeys [RR.a 60 "1.1.1.1", RR.a 60 "2.2.2.2"]).toFinset :=
  ⟨by decide, by decide, by decide, by decide, by decide⟩

/-- Unfolding `joinGroups` over one group. -/
theorem joinGroups_cons (p : (String × String) × List record)
    (rest : List ((String × String) × List record)) :
    joinGroups (p :: rest) = p.2 ++ joinGroups rest := by
  simp [joinGroups]

/-- Inserting a record into the grouping accumulator adds exactly that
record to the combined contents, up to order. -/
theorem joinGroups_insertRecord (acc : List ((String × String) × List record)) (r : record) :
    (joinGroups (insertRecord acc r)).Perm (joinGroups acc ++ [r]) := by
  induction acc with
  | nil => simp [insertRecord, joinGroups]
  | cons q rest ih =>
    obtain ⟨k, g⟩ := q
    rw [insertRecord]
    split_ifs with hk
    · rw [joinGroups_cons, joinGroups_cons]
      rw [List.append_assoc, List.append_assoc]
      exact List.Perm.append_left g List.perm_append_comm
    · rw [joinGroups_cons, joinGroups_cons, List.append_assoc]
      exact List.Perm.append_left g ih

/-- Folding the grouping step over a record list appends exactly those
records to the accumulator contents, up to order. -/
theorem joinGroups_foldl (l : List record) :
    ∀ acc, (joinGroups (l.foldl insertRecord acc)).Perm (joinGroups acc ++ l) := by
  induction l with
  | nil => intro acc; simp
  | cons r l ih =>
    intro acc
    rw [List.foldl_cons]
    refine (ih (insertRecord acc r)).trans ?_
    refine ((joinGroups_insertRecord acc r).append_right l).trans ?_
    rw [List.append_assoc]
    exact List.Perm.refl _

/-- Insertion preserves group homogeneity: every member of every group
carries the group's own (name, type) key. -/
theorem insertRecord_homog (r : record) :
    ∀ acc, (∀ p ∈ acc, ∀ x ∈ p.2, groupKey x = p.1) →
      ∀ p ∈ insertRecord acc r, ∀ x ∈ p.2, groupKey x = p.1 := by
  intro acc
  induction acc with
  | nil =>
    intro h p hp x hx
    simp only [insertRecord, List.mem_singleton] at hp
    subst hp
    simp only [List.mem_singleton] at hx
    subst hx
    rfl
  | cons q rest ih =>
    obtain ⟨k, g⟩ := q
    intro h p hp x hx
    rw [insertRecord] at hp
    split_ifs at hp with hk
    · rcases List.mem_cons.mp hp with rfl | hp2
      · rcases List.mem_append.mp hx with hx1 | hx2
        · exact h (k, g) (List.mem_cons_self _ _) x hx1
        · simp only [List.mem_singleton] at hx2
          subst hx2
          exact hk.symm
      · exact h p (List.mem_cons_of_mem _ hp2) x hx
    · rcases List.mem_cons.mp hp with rfl | hp2
      · exact h (k, g) (List.mem_cons_self _ _) x hx
      · exact ih (fun q hq => h q (List.mem_cons_of_mem _ hq)) p hp2 x hx

/-- Insertion never creates an empty group. -/
theorem insertRecord_nonempty (r : record) :
    ∀ acc, (∀ p ∈ acc, p.2 ≠ []) → ∀ p ∈ insertRecord acc r, p.2 ≠ [] := by
  intro acc
  induction acc with
  | nil =>
    intro h p hp
    simp only [insertRecord, List.mem_singleton] at hp
    subst hp
    simp
  | cons q rest ih =>
    obtain ⟨k, g⟩ := q
    intro h p hp
    rw [insertRecord] at hp
    split_ifs at hp with hk
    · rcases List.mem_cons.mp hp with rfl | hp2
      · simp
      · exact h p (List.mem_cons_of_mem _ hp2)
    · rcases List.mem_cons.mp hp with rfl | hp2
      · exact h (k, g) (List.mem_cons_self _ _)
      · exact ih (fun q hq => h q (List.mem_cons_of_mem _ hq)) p hp2

/-- The grouping fold preserves non-emptiness and homogeneity of all
groups. -/
theorem foldl_insert_inv (l : List record) :
    ∀ acc, (∀ p ∈ acc, p.2 ≠ []) → (∀ p ∈ acc, ∀ x ∈ p.2, groupKey x = p.1) →
      (∀ p ∈ l.foldl insertRecord acc, p.2 ≠ []) ∧
      (∀ p ∈ l.foldl insertRecord acc, ∀ x ∈ p.2, groupKey x = p.1) := by
  induction l with
  | nil => intro acc h1 h2; exact ⟨h1, h2⟩
  | cons r l ih =>
    intro acc h1 h2
    rw [List.foldl_cons]
    exact ih _ (insertRecord_nonempty r acc h1) (insertRecord_homog r acc h2)

/-- C2: grouping partitions the input exactly — the multiset union of
all groups' members is a permutation of the original collection (no
record lost, none duplicated), every group is non-empty, and all
members of a group share the group's name and type, hence the same
absolutized name for any domain. -/
theorem grouping_correct (records : List record) :
    (joinGroups (recordsByNameType records)).Perm records
  ∧ (∀ p ∈ recordsByNameType records, p.2 ≠ [])
  ∧ (∀ p ∈ recordsByNameType records, ∀ r ∈ p.2, r.name = p.1.1 ∧ r.rtype = p.1.2)
  ∧ (∀ domain : String, ∀ p ∈ recordsByNameType records, ∀ r ∈ p.2, ∀ s ∈ p.2,
       r.rtype = s.rtype ∧ absolutize domain r.name = absolutize domain s.name) := by
  have hperm : (joinGroups (recordsByNameType records)).Perm records := by
    have := joinGroups_foldl records []
    simpa [recordsByNameType, joinGroups] using this
  have hinv := foldl_insert_inv records [] (by simp) (by simp)
  refine ⟨hperm, hinv.1, ?_, ?_⟩
  · intro p hp r hr
    have h1 := hinv.2 p hp r hr
    exact ⟨congrArg Prod.fst h1, congrArg Prod.snd h1⟩
  · intro domain p hp r hr s hs
    have h1 := hinv.2 p hp r hr
    have h2 := hinv.2 p hp s hs
    have h3 := h1.trans h2.symm
    have hname : r.name = s.name := congrArg Prod.fst h3
    have hrt : r.rtype = s.rtype := congrArg Prod.snd h3
    exact ⟨hrt, by rw [hname]⟩

/-- Witness for C2 on a concrete single-record collection. -/
theorem grouping_correct_witness :
    (⟨"A", "www", 300, "1.2.3.4", "", 0, []⟩ : record).name = "www"
  ∧ (⟨"A", "www", 300, "1.2.3.4", "", 0, []⟩ : record).rtype = "A" :=
  (grouping_correct [⟨"A", "www", 300, "1.2.3.4", "", 0, []⟩]).2.2.1
    (("www", "A"), [⟨"A", "www", 300, "1.2.3.4", "", 0, []⟩]) (by decide)
    ⟨"A", "www", 300, "1.2.3.4", "", 0, []⟩ (by decide)

/-- C7: the aggregate failure flag is monotone — once true, folding
any further outcomes never clears it; the run produces exactly one
outcome per launched (nameserver, group) check with no early
termination; the flag ends true iff some check failed; and the overall
result is success iff zero outcomes are failures. -/
theorem orchestrator_aggregation :
    (∀ later : List Bool, List.foldl (fun f o => f || o) true later = true)
  ∧ (∀ (resolve : Resolve) (nss : List String) (domains : List (String × List record)),
       (runAll resolve nss domains).length = (allChecks nss domains).length)
  ∧ (∀ outcomes : List Bool, failedFlag outcomes = true ↔ true ∈ outcomes)
  ∧ (∀ (resolve : Resolve) (nss : List String) (domains : List (String × List record)),
       mainResult resolve nss domains = true ↔ (runAll resolve nss domains).count true = 0) := by
  have hfold : ∀ (b : Bool) (l : List Bool),
      List.foldl (fun f o => f || o) b l = (b || l.any id) := by
    intro b l
    induction l generalizing b with
    | nil => simp
    | cons o l ih => simp [List.foldl_cons, ih, Bool.or_assoc]
  have hmem : ∀ outcomes : List Bool, failedFlag outcomes = true ↔ true ∈ outcomes := by
    intro outcomes
    rw [failedFlag, hfold]
    simp only [Bool.false_or, List.any_eq_true, id]
    constructor
    · rintro ⟨x, hx, rfl⟩
      exact hx
    · intro hx
      exact ⟨true, hx, rfl⟩
  refine ⟨?_, ?_, hmem, ?_⟩
  · intro later
    rw [hfold]
    simp
  · intro resolve nss domains
    simp [runAll]
  · intro resolve nss domains
    rw [mainResult]
    rw [Bool.not_eq_true']  -- (!b) = true ↔ b = false ... adjust below if needed
    rw [List.count_eq_zero]
    constructor
    · intro hf htrue
      exact absurd ((hmem _).mpr htrue) (by simp [hf])
    · intro hnot
      cases hff : failedFlag (runAll resolve nss domains) with
      | false => rfl
      | true => exact absurd ((hmem _).mp hff) hnot
